import Mathlib

/-
Verification of the Python orchestration scripts of this repository against
their specification.  The scripts are shallowly embedded: nodal databases
become functions, engine models become partial maps from model-part names to
meshes, and the imperative loops of coupling_interface_data.py become
structurally recursive functions over the same iteration spaces.  Exceptions
(KeyError / IndexError) are made explicit: a loop either completes normally or
stops with the state it had mutated so far.
-/

namespace KratosSpec

/-! Embedding of
applications/CoSimulationApplication/python_scripts/coupling_interface_data.py -/

/-- Historical database of one mesh node, as exposed by the engine bindings:
for a variable name and a solution-step index the node stores a list of value
components.  Component values live in an arbitrary type `α`; the scripts move
them around without computing on them. -/
def NodeData (α : Type) : Type := String → Nat → List α

/-- Engine binding `node.GetSolutionStepValue(variable, step)`: reads the
stored component list. -/
def GetSolutionStepValue {α : Type} (node : NodeData α) (var : String) (step : Nat) : List α :=
  node var step

/-- Engine binding `node.SetSolutionStepValue(variable, step, value)`: the
binding copies the passed component list into the node's database entry for
that variable and step, leaving every other entry unchanged. -/
def SetSolutionStepValue {α : Type} (node : NodeData α) (var : String) (step : Nat)
    (value : List α) : NodeData α :=
  fun v s => if v = var ∧ s = step then value else node v s

/-- Model part (mesh) of the engine: the container of nodes iterated by
`for node in data_mesh.Nodes`. -/
structure MeshPart (α : Type) where
  nodes : List (NodeData α)

/-- Engine model, accessed as `self.solver.model[geometry_name]`; `none` is a
KeyError. -/
def EngineModel (α : Type) : Type := String → Option (MeshPart α)

/-- Solver wrapper: the only field the script reads is `solver.model`. -/
structure Solver (α : Type) where
  model : EngineModel α

/-- Fields assigned by `CouplingInterfaceData.__init__` from the validated
configuration. -/
structure CouplingInterfaceData (α : Type) where
  name : String
  solver : Solver α
  dimension : Int
  location : String
  geometry_name : String

/-- Outcome of an imperative Python block that mutates state and may raise:
`ok` carries the state after normal completion, `exn` the state at the moment
an exception (KeyError / IndexError) escaped the block. -/
inductive PyResult (σ : Type) where
  | ok (s : σ)
  | exn (s : σ)

/-- Normal-completion test for a `PyResult`. -/
def PyResult.isOk {σ : Type} : PyResult σ → Bool
  | .ok _ => true
  | .exn _ => false

/-- Python list assignment `data[idx] = v` for an index `idx ≥ 0`: it succeeds
exactly when `idx < len(data)` and raises IndexError otherwise. -/
def listStore {α : Type} (data : List α) (idx : Nat) (v : α) : Option (List α) :=
  if idx < data.length then some (data.set idx v) else none

/-- Shared shape of the two inner `for i in range(self.dimension)` loops of
coupling_interface_data.py: starting at iteration `i` with `count` iterations
left, execute `dst[dstOff + i] = src[srcOff + i]` and continue with `i + 1`.
In `GetPythonList` the body is `data[node_index*dim + i] = data_value[i]`
(`srcOff = 0`, `dstOff = node_index*dim`); in `ApplyUpdateToData` the body is
`updated_value[i] = update[node_index*dim + i]` (`srcOff = node_index*dim`,
`dstOff = 0`).  An out-of-range read or write raises IndexError: the loop stops
and reports the destination list as mutated so far. -/
def copyLoop {α : Type} (src : List α) (srcOff dstOff : Nat) :
    Nat → Nat → List α → PyResult (List α)
  | _, 0, dst => .ok dst
  | i, count + 1, dst =>
    match src[srcOff + i]? with
    | some v =>
      match listStore dst (dstOff + i) v with
      | some dst2 => copyLoop src srcOff dstOff (i + 1) count dst2
      | none => .exn dst
    | none => .exn dst

/-- Inner loop of `GetPythonList` for one node: copy components `0 ≤ i < d` of
the read `data_value` into `data` at offset `base = node_index*dim`. -/
def writeComponents {α : Type} (data_value : List α) (d base : Nat) (data : List α) :
    PyResult (List α) :=
  copyLoop data_value 0 base 0 d data

/-- Node loop of `GetPythonList`: iterate over the mesh nodes keeping the
running `node_index`; an IndexError in the inner loop aborts the whole call
(the partially filled local list `data` is discarded with it). -/
def gatherNodes {α : Type} (var : String) (step d : Nat) :
    List (NodeData α) → Nat → List α → Option (List α)
  | [], _, data => some data
  | node :: rest, node_index, data =>
    match writeComponents (GetSolutionStepValue node var step) d (node_index * d) data with
    | .ok data2 => gatherNodes var step d rest (node_index + 1) data2
    | .exn _ => none

/-- `CouplingInterfaceData.GetPythonList(solution_step_index)`: preallocates
`data = [0]*len(data_mesh.Nodes)*self.dimension` (`pyZero` stands for the
Python literal `0`; a negative configured dimension yields an empty list, as
Python list repetition does) and fills it node by node from
`GetSolutionStepValue`. -/
def CouplingInterfaceData.GetPythonList {α : Type} (self : CouplingInterfaceData α)
    (pyZero : α) (solution_step_index : Nat) : Option (List α) :=
  match self.solver.model self.geometry_name with
  | none => none
  | some data_mesh =>
    gatherNodes self.name solution_step_index self.dimension.toNat data_mesh.nodes 0
      (List.replicate (data_mesh.nodes.length * self.dimension.toNat) pyZero)

/-- `CouplingInterfaceData.GetNumpyArray(solution_step_index)`:
`np.asarray(self.GetPythonList(...))`, i.e. the same entries repackaged as an
array. -/
def CouplingInterfaceData.GetNumpyArray {α : Type} (self : CouplingInterfaceData α)
    (pyZero : α) (solution_step_index : Nat) : Option (Array α) :=
  (self.GetPythonList pyZero solution_step_index).map List.toArray

/-- Inner loop of `ApplyUpdateToData` for one node: copy `update` components
at offset `base = node_index*dim` into the shared 3-slot buffer
`updated_value`. -/
def fillBuffer {α : Type} (update : List α) (d base : Nat) (updated_value : List α) :
    PyResult (List α) :=
  copyLoop update base 0 0 d updated_value

/-- Node loop of `ApplyUpdateToData`: the buffer `updated_value` is allocated
once before the loop and reused for every node; after filling it the loop
calls `SetSolutionStepValue(variable, 0, updated_value)` on the node.  On an
IndexError the nodes already updated keep their new values (`exn` carries
them), and the node being processed is left untouched. -/
def scatterNodes {α : Type} (var : String) (d : Nat) (update : List α) :
    List (NodeData α) → Nat → List α → PyResult (List (NodeData α) × List α)
  | [], _, updated_value => .ok ([], updated_value)
  | node :: rest, node_index, updated_value =>
    match fillBuffer update d (node_index * d) updated_value with
    | .ok buf =>
      match scatterNodes var d update rest (node_index + 1) buf with
      | .ok (rest2, buf2) => .ok (SetSolutionStepValue node var 0 buf :: rest2, buf2)
      | .exn (rest2, buf2) => .exn (SetSolutionStepValue node var 0 buf :: rest2, buf2)
    | .exn buf => .exn (node :: rest, buf)

/-- `CouplingInterfaceData.ApplyUpdateToData(update)`: allocates the 3-slot
buffer `updated_value = [0]*3`, runs the node loop, and (in place, through the
node references of the mesh) leaves the engine model with the updated nodes of
the configured geometry.  The result records the model reached on normal
completion or at the moment an exception escaped. -/
def CouplingInterfaceData.ApplyUpdateToData {α : Type} (self : CouplingInterfaceData α)
    (pyZero : α) (update : List α) : PyResult (EngineModel α) :=
  match self.solver.model self.geometry_name with
  | none => .exn self.solver.model
  | some data_mesh =>
    match scatterNodes self.name self.dimension.toNat update data_mesh.nodes 0
        (List.replicate 3 pyZero) with
    | .ok (nodes2, _) =>
      .ok (fun g => if g = self.geometry_name then some ⟨nodes2⟩ else self.solver.model g)
    | .exn (nodes2, _) =>
      .exn (fun g => if g = self.geometry_name then some ⟨nodes2⟩ else self.solver.model g)

/-- Engine read `node.GetSolutionStepValue(...)` with the engine model
threaded through the call, making explicit that the binding returns the value
and leaves the model as it was. -/
def getSolutionStepValueThreaded {α : Type} (m : EngineModel α) (node : NodeData α)
    (var : String) (step : Nat) : EngineModel α × List α :=
  (m, GetSolutionStepValue node var step)

/-- Node loop of `GetPythonList` with the engine model threaded through every
engine call it issues. -/
def gatherNodesThreaded {α : Type} (var : String) (step d : Nat) :
    List (NodeData α) → Nat → List α → EngineModel α → EngineModel α × Option (List α)
  | [], _, data, m => (m, some data)
  | node :: rest, node_index, data, m =>
    match getSolutionStepValueThreaded m node var step with
    | (m1, data_value) =>
      match writeComponents data_value d (node_index * d) data with
      | .ok data2 => gatherNodesThreaded var step d rest (node_index + 1) data2 m1
      | .exn _ => (m1, none)

/-- `GetPythonList` in state-threading form: the pair of the engine model
after the call and the returned list. -/
def CouplingInterfaceData.GetPythonListThreaded {α : Type} (self : CouplingInterfaceData α)
    (pyZero : α) (solution_step_index : Nat) : EngineModel α × Option (List α) :=
  match self.solver.model self.geometry_name with
  | none => (self.solver.model, none)
  | some data_mesh =>
    gatherNodesThreaded self.name solution_step_index self.dimension.toNat data_mesh.nodes 0
      (List.replicate (data_mesh.nodes.length * self.dimension.toNat) pyZero)
      self.solver.model

/-- `GetNumpyArray` in state-threading form. -/
def CouplingInterfaceData.GetNumpyArrayThreaded {α : Type} (self : CouplingInterfaceData α)
    (pyZero : α) (solution_step_index : Nat) : EngineModel α × Option (Array α) :=
  match self.GetPythonListThreaded pyZero solution_step_index with
  | (m, r) => (m, r.map List.toArray)

end KratosSpec

namespace KratosSpec

/-- Success characterization of `copyLoop`: when all reads and writes are in
range, the loop completes, preserves the destination length, copies
`src[srcOff + m]` to `dst[dstOff + m]` for each remaining iteration `m`, and
leaves every other destination entry unchanged. -/
theorem copyLoop_ok {α : Type} (src : List α) (srcOff dstOff : Nat) :
    ∀ (count i : Nat) (dst : List α),
      srcOff + i + count ≤ src.length →
      dstOff + i + count ≤ dst.length →
      ∃ out, copyLoop src srcOff dstOff i count dst = .ok out ∧
        out.length = dst.length ∧
        (∀ j, j < dstOff + i ∨ dstOff + i + count ≤ j → out[j]? = dst[j]?) ∧
        (∀ m, i ≤ m → m < i + count → out[dstOff + m]? = src[srcOff + m]?) := by
  intro count
  induction count with
  | zero =>
    intro i dst _ _
    exact ⟨dst, rfl, rfl, fun j _ => rfl, fun m him hm => absurd hm (by omega)⟩
  | succ c ih =>
    intro i dst hsrc hdst
    have hread : srcOff + i < src.length := by omega
    have hwrite : dstOff + i < dst.length := by omega
    have hsome : src[srcOff + i]? = some (src[srcOff + i]) := List.getElem?_eq_getElem hread
    have hstep : copyLoop src srcOff dstOff i (c + 1) dst
        = copyLoop src srcOff dstOff (i + 1) c (dst.set (dstOff + i) (src[srcOff + i])) := by
      simp only [copyLoop, hsome, listStore, if_pos hwrite]
    obtain ⟨out, hout, hlen, hframe, hcopy⟩ :=
      ih (i + 1) (dst.set (dstOff + i) (src[srcOff + i]))
        (by omega) (by rw [List.length_set]; omega)
    refine ⟨out, by rw [hstep]; exact hout, by rw [hlen, List.length_set], ?_, ?_⟩
    · intro j hj
      rw [hframe j (by omega), List.getElem?_set_ne (by omega)]
    · intro m him hm
      by_cases hmi : m = i
      · subst hmi
        rw [hframe (dstOff + m) (Or.inl (by omega)), List.getElem?_set_self hwrite, hsome]
      · exact hcopy m (by omega) (by omega)

/-- Failure of `copyLoop` writing from offset 0 into a destination that is too
short for the remaining iterations: an IndexError is raised. -/
theorem copyLoop_exn_of_short {α : Type} (src : List α) (srcOff : Nat) :
    ∀ (count i : Nat) (dst : List α),
      dst.length < i + count →
      i ≤ dst.length →
      srcOff + i + count ≤ src.length →
      ∃ bad, copyLoop src srcOff 0 i count dst = .exn bad := by
  intro count
  induction count with
  | zero =>
    intro i dst h1 h2 _
    exact absurd h2 (by omega)
  | succ c ih =>
    intro i dst h1 h2 hsrc
    have hread : srcOff + i < src.length := by omega
    have hsome : src[srcOff + i]? = some (src[srcOff + i]) := List.getElem?_eq_getElem hread
    by_cases hi : i < dst.length
    · have hstep : copyLoop src srcOff 0 i (c + 1) dst
          = copyLoop src srcOff 0 (i + 1) c (dst.set (0 + i) (src[srcOff + i])) := by
        simp only [copyLoop, hsome, listStore, if_pos (show 0 + i < dst.length by omega)]
      obtain ⟨bad, hbad⟩ := ih (i + 1) (dst.set (0 + i) (src[srcOff + i]))
        (by rw [List.length_set]; omega) (by rw [List.length_set]; omega) (by omega)
      exact ⟨bad, by rw [hstep]; exact hbad⟩
    · refine ⟨dst, ?_⟩
      simp only [copyLoop, hsome, listStore, if_neg (show ¬ 0 + i < dst.length by omega)]

end KratosSpec

namespace KratosSpec

/-- Success characterization of the `GetPythonList` node loop: when every
node's value has at least `d` components and the preallocated list is long
enough, the loop completes and places component `i` of the `k`-th remaining
node at position `(k0 + k) * d + i`. -/
theorem gatherNodes_ok {α : Type} (var : String) (step d : Nat) :
    ∀ (nodes : List (NodeData α)) (k0 : Nat) (data : List α),
      (∀ node, node ∈ nodes → d ≤ (GetSolutionStepValue node var step).length) →
      (k0 + nodes.length) * d ≤ data.length →
      ∃ out, gatherNodes var step d nodes k0 data = some out ∧
        out.length = data.length ∧
        (∀ j, j < k0 * d → out[j]? = data[j]?) ∧
        ∀ k node, nodes[k]? = some node → ∀ i, i < d →
          out[(k0 + k) * d + i]? = (GetSolutionStepValue node var step)[i]? := by
  intro nodes
  induction nodes with
  | nil =>
    intro k0 data _ _
    exact ⟨data, rfl, rfl, fun j _ => rfl, fun k node hk => by simp at hk⟩
  | cons node rest ih =>
    intro k0 data hval hlen
    have hvhead : d ≤ (GetSolutionStepValue node var step).length :=
      hval node (List.mem_cons_self node rest)
    have hlen1 : (k0 + (rest.length + 1)) * d ≤ data.length := by
      simpa using hlen
    have hmul : (k0 + 1) * d ≤ (k0 + (rest.length + 1)) * d :=
      Nat.mul_le_mul_right d (by omega)
    have hkd : (k0 + 1) * d = k0 * d + d := by ring
    obtain ⟨data2, hdata2, hlen2, hframe2, hcopy2⟩ :=
      copyLoop_ok (GetSolutionStepValue node var step) 0 (k0 * d) d 0 data
        (by omega) (by omega)
    have hstep : gatherNodes var step d (node :: rest) k0 data
        = gatherNodes var step d rest (k0 + 1) data2 := by
      simp only [gatherNodes, writeComponents]
      rw [hdata2]
    have hlen3 : ((k0 + 1) + rest.length) * d ≤ data2.length := by
      rw [hlen2]
      have he : (k0 + 1) + rest.length = k0 + (rest.length + 1) := by omega
      rw [he]
      exact hlen1
    obtain ⟨out, hout, hlenO, hframeO, hcopyO⟩ :=
      ih (k0 + 1) data2 (fun n hn => hval n (List.mem_cons_of_mem _ hn)) hlen3
    refine ⟨out, by rw [hstep]; exact hout, by rw [hlenO, hlen2], ?_, ?_⟩
    · intro j hj
      have hj1 : j < (k0 + 1) * d := by omega
      rw [hframeO j hj1]
      have := hframe2 j (Or.inl (by omega))
      simpa using this
    · intro k node' hk i hi
      match k, hk with
      | 0, hk =>
        have hnode : node' = node := by simpa using hk.symm
        subst hnode
        rw [show (k0 + 0) * d + i = k0 * d + i by ring]
        rw [hframeO (k0 * d + i) (by omega)]
        have := hcopy2 i (Nat.zero_le i) (by omega)
        simpa using this
      | k' + 1, hk =>
        have hk' : rest[k']? = some node' := by simpa using hk
        have := hcopyO k' node' hk' i hi
        rw [show (k0 + (k' + 1)) * d + i = ((k0 + 1) + k') * d + i by ring]
        exact this

end KratosSpec

namespace KratosSpec

/-- Success characterization of the `ApplyUpdateToData` node loop for a
configured dimension of at most 3: every node receives a fresh snapshot of the
3-slot buffer whose first `d` entries come from `update` and whose remaining
entries still hold the initial Python `0`. -/
theorem scatterNodes_ok {α : Type} (var : String) (d : Nat) (update : List α) (pyZero : α)
    (hd3 : d ≤ 3) :
    ∀ (nodes : List (NodeData α)) (k0 : Nat) (buffer : List α),
      buffer.length = 3 →
      (∀ j, d ≤ j → j < 3 → buffer[j]? = some pyZero) →
      (k0 + nodes.length) * d ≤ update.length →
      ∃ nodes2 bufF, scatterNodes var d update nodes k0 buffer = .ok (nodes2, bufF) ∧
        nodes2.length = nodes.length ∧
        ∀ k n1, nodes[k]? = some n1 → ∃ buf,
          nodes2[k]? = some (SetSolutionStepValue n1 var 0 buf) ∧
          buf.length = 3 ∧
          (∀ i, i < d → buf[i]? = update[(k0 + k) * d + i]?) ∧
          (∀ j, d ≤ j → j < 3 → buf[j]? = some pyZero) := by
  intro nodes
  induction nodes with
  | nil =>
    intro k0 buffer hb _ _
    exact ⟨[], buffer, rfl, rfl, fun k n1 hk => by simp at hk⟩
  | cons node rest ih =>
    intro k0 buffer hb hz hupd
    have hupd1 : (k0 + (rest.length + 1)) * d ≤ update.length := by simpa using hupd
    have hmul : (k0 + 1) * d ≤ (k0 + (rest.length + 1)) * d :=
      Nat.mul_le_mul_right d (by omega)
    have hkd : (k0 + 1) * d = k0 * d + d := by ring
    obtain ⟨buf, hbuf, hblen, hbframe, hbcopy⟩ :=
      copyLoop_ok update (k0 * d) 0 d 0 buffer (by omega) (by omega)
    have hblen3 : buf.length = 3 := by rw [hblen, hb]
    have hbz : ∀ j, d ≤ j → j < 3 → buf[j]? = some pyZero := by
      intro j hdj hj3
      rw [hbframe j (Or.inr (by omega))]
      exact hz j hdj hj3
    have hupd2 : ((k0 + 1) + rest.length) * d ≤ update.length := by
      have he : (k0 + 1) + rest.length = k0 + (rest.length + 1) := by omega
      rw [he]; exact hupd1
    obtain ⟨rest2, bufF, hrest, hrlen, hrprop⟩ := ih (k0 + 1) buf hblen3 hbz hupd2
    have hstep : scatterNodes var d update (node :: rest) k0 buffer
        = .ok (SetSolutionStepValue node var 0 buf :: rest2, bufF) := by
      simp only [scatterNodes, fillBuffer, hbuf, hrest]
    refine ⟨SetSolutionStepValue node var 0 buf :: rest2, bufF, hstep, by simp [hrlen], ?_⟩
    intro k n1 hk
    match k, hk with
    | 0, hk =>
      have hnode : n1 = node := by simpa using hk.symm
      subst hnode
      refine ⟨buf, by simp, hblen3, ?_, hbz⟩
      intro i hi
      have := hbcopy i (Nat.zero_le i) (by omega)
      rw [show (k0 + 0) * d + i = k0 * d + i by ring]
      simpa using this
    | k' + 1, hk =>
      have hk' : rest[k']? = some n1 := by simpa using hk
      obtain ⟨buf', hbuf', hlen', hcopy', hz'⟩ := hrprop k' n1 hk'
      refine ⟨buf', by simpa using hbuf', hlen', ?_, hz'⟩
      intro i hi
      rw [show (k0 + (k' + 1)) * d + i = ((k0 + 1) + k') * d + i by ring]
      exact hcopy' i hi

/-- Shape of the `ApplyUpdateToData` node loop on any outcome, normal or
exceptional: the node list keeps its length and every node is either untouched
or has received exactly one `SetSolutionStepValue(variable, 0, ...)` call. -/
theorem scatterNodes_shape {α : Type} (var : String) (d : Nat) (update : List α) :
    ∀ (nodes : List (NodeData α)) (k0 : Nat) (buffer : List α)
      (nodes2 : List (NodeData α)) (bufF : List α),
      (scatterNodes var d update nodes k0 buffer = .ok (nodes2, bufF) ∨
       scatterNodes var d update nodes k0 buffer = .exn (nodes2, bufF)) →
      nodes2.length = nodes.length ∧
      ∀ (k : Nat) (n1 : NodeData α), nodes[k]? = some n1 → ∃ n2, nodes2[k]? = some n2 ∧
        (n2 = n1 ∨ ∃ buf, n2 = SetSolutionStepValue n1 var 0 buf) := by
  intro nodes
  induction nodes with
  | nil =>
    intro k0 buffer nodes2 bufF h
    rcases h with h | h
    · simp only [scatterNodes, PyResult.ok.injEq, Prod.mk.injEq] at h
      exact ⟨by rw [← h.1], fun k n1 hk => by simp at hk⟩
    · exact PyResult.noConfusion (by simpa only [scatterNodes] using h)
  | cons node rest ih =>
    intro k0 buffer nodes2 bufF h
    cases hfill : fillBuffer update d (k0 * d) buffer with
    | ok buf =>
      cases hsc : scatterNodes var d update rest (k0 + 1) buf with
      | ok p =>
        obtain ⟨rest2, buf2⟩ := p
        simp only [scatterNodes, hfill, hsc] at h
        obtain ⟨hr, hprop⟩ := ih (k0 + 1) buf rest2 buf2 (Or.inl hsc)
        rcases h with h | h
        · simp only [PyResult.ok.injEq, Prod.mk.injEq] at h
          obtain ⟨hn, -⟩ := h
          subst hn
          refine ⟨by simp [hr], ?_⟩
          intro k n1 hk
          match k, hk with
          | 0, hk =>
            have : n1 = node := by simpa using hk.symm
            subst this
            exact ⟨SetSolutionStepValue n1 var 0 buf, by simp, Or.inr ⟨buf, rfl⟩⟩
          | k' + 1, hk =>
            obtain ⟨n2, hn2, hor⟩ := hprop k' n1 (by simpa using hk)
            exact ⟨n2, by simpa using hn2, hor⟩
        · exact PyResult.noConfusion h
      | exn p =>
        obtain ⟨rest2, buf2⟩ := p
        simp only [scatterNodes, hfill, hsc] at h
        obtain ⟨hr, hprop⟩ := ih (k0 + 1) buf rest2 buf2 (Or.inr hsc)
        rcases h with h | h
        · exact PyResult.noConfusion h
        · simp only [PyResult.exn.injEq, Prod.mk.injEq] at h
          obtain ⟨hn, -⟩ := h
          subst hn
          refine ⟨by simp [hr], ?_⟩
          intro k n1 hk
          match k, hk with
          | 0, hk =>
            have : n1 = node := by simpa using hk.symm
            subst this
            exact ⟨SetSolutionStepValue n1 var 0 buf, by simp, Or.inr ⟨buf, rfl⟩⟩
          | k' + 1, hk =>
            obtain ⟨n2, hn2, hor⟩ := hprop k' n1 (by simpa using hk)
            exact ⟨n2, by simpa using hn2, hor⟩
    | exn buf =>
      simp only [scatterNodes, hfill] at h
      rcases h with h | h
      · exact PyResult.noConfusion h
      · simp only [PyResult.exn.injEq, Prod.mk.injEq] at h
        obtain ⟨hn, -⟩ := h
        subst hn
        exact ⟨rfl, fun k n1 hk => ⟨n1, hk, Or.inl rfl⟩⟩

/-- The state-threaded node loop of `GetPythonList` returns the engine model
it was given, unchanged, together with the result of the plain loop. -/
theorem gatherNodesThreaded_spec {α : Type} (var : String) (step d : Nat) :
    ∀ (nodes : List (NodeData α)) (k0 : Nat) (data : List α) (m : EngineModel α),
      gatherNodesThreaded var step d nodes k0 data m
        = (m, gatherNodes var step d nodes k0 data) := by
  intro nodes
  induction nodes with
  | nil => intro k0 data m; rfl
  | cons node rest ih =>
    intro k0 data m
    simp only [gatherNodesThreaded, gatherNodes, getSolutionStepValueThreaded]
    cases hw : writeComponents (GetSolutionStepValue node var step) d (k0 * d) data with
    | ok data2 => exact ih (k0 + 1) data2 m
    | exn d2 => rfl

end KratosSpec

namespace KratosSpec

/-- C1: for a geometry whose mesh holds `n` nodes and a configured dimension
`d ≥ 0` whose addressed components all exist on the nodes, `GetPythonList`
returns a flat list of length `n * d` whose entry at position `k*d + i` is
component `i` of node `k`'s solution-step value of the configured variable at
the requested solution-step index. -/
theorem C1_getPythonList_flat_layout {α : Type} (self : CouplingInterfaceData α)
    (pyZero : α) (solution_step_index d : Nat) (data_mesh : MeshPart α)
    (hdim : self.dimension = Int.ofNat d)
    (hmesh : self.solver.model self.geometry_name = some data_mesh)
    (hval : ∀ node, node ∈ data_mesh.nodes →
      d ≤ (GetSolutionStepValue node self.name solution_step_index).length) :
    ∃ data, self.GetPythonList pyZero solution_step_index = some data ∧
      data.length = data_mesh.nodes.length * d ∧
      ∀ (k : Nat) (node : NodeData α), data_mesh.nodes[k]? = some node →
        ∀ i, i < d →
          data[k * d + i]? = (GetSolutionStepValue node self.name solution_step_index)[i]? := by
  have hdt : self.dimension.toNat = d := by rw [hdim]; rfl
  obtain ⟨out, hout, hlen, _, hcopy⟩ :=
    gatherNodes_ok self.name solution_step_index d data_mesh.nodes 0
      (List.replicate (data_mesh.nodes.length * d) pyZero) hval (by simp)
  refine ⟨out, ?_, by simp [hlen], ?_⟩
  · simp only [CouplingInterfaceData.GetPythonList, hmesh, hdt]
    exact hout
  · intro k node hk i hi
    have := hcopy k node hk i hi
    simpa using this

/-- Geometry name of the concrete engine state used by the witnesses. -/
def interfaceName : String := "interface"

/-- Variable name of the concrete engine state used by the witnesses. -/
def velocityName : String := "VELOCITY"

/-- First concrete node: every variable and step holds `[7, 8, 9]`. -/
def wNode1 : NodeData Int := fun _ _ => [7, 8, 9]

/-- Second concrete node: every variable and step holds `[4, 5, 6]`. -/
def wNode2 : NodeData Int := fun _ _ => [4, 5, 6]

/-- Concrete two-node mesh. -/
def wMesh : MeshPart Int := ⟨[wNode1, wNode2]⟩

/-- Concrete engine model holding the mesh under `interfaceName`. -/
def wModel : EngineModel Int := fun g => if g = interfaceName then some wMesh else none

/-- Concrete coupling data with configured dimension 2. -/
def wData : CouplingInterfaceData Int :=
  ⟨velocityName, ⟨wModel⟩, Int.ofNat 2, "node_historical", interfaceName⟩

/-- Witness for C1: the hypotheses of `C1_getPythonList_flat_layout` hold for
the concrete dimension-2 configuration over the two-node mesh, and the theorem
applies there. -/
theorem C1_witness :
    (wData.dimension = Int.ofNat 2 ∧
     wData.solver.model wData.geometry_name = some wMesh ∧
     (∀ node, node ∈ wMesh.nodes → 2 ≤ (GetSolutionStepValue node wData.name 0).length)) ∧
    (∃ data, wData.GetPythonList (0 : Int) 0 = some data ∧
      data.length = wMesh.nodes.length * 2 ∧
      ∀ (k : Nat) (node : NodeData Int), wMesh.nodes[k]? = some node →
        ∀ i, i < 2 → data[k * 2 + i]? = (GetSolutionStepValue node wData.name 0)[i]?) := by
  have h1 : wData.dimension = Int.ofNat 2 := rfl
  have h2 : wData.solver.model wData.geometry_name = some wMesh := rfl
  have h3 : ∀ node, node ∈ wMesh.nodes → 2 ≤ (GetSolutionStepValue node wData.name 0).length := by
    intro node hn
    have : node = wNode1 ∨ node = wNode2 := by simpa [wMesh] using hn
    rcases this with h | h <;> subst h <;> decide
  exact ⟨⟨h1, h2, h3⟩, C1_getPythonList_flat_layout wData 0 0 2 wMesh h1 h2 h3⟩

end KratosSpec

namespace KratosSpec

/-- C2 (amended: configured dimension at most 3): for every geometry of `n`
nodes, every configured dimension `0 ≤ d ≤ 3` and every update of length at
least `n * d`, `ApplyUpdateToData` completes and stores on node `k` a
solution-step-0 value whose component `i` is `update[k*d + i]` for every
`i < d`; the storage happens through `SetSolutionStepValue`. -/
theorem C2_applyUpdateToData_stores {α : Type} (self : CouplingInterfaceData α)
    (pyZero : α) (update : List α) (d : Nat) (data_mesh : MeshPart α)
    (hdim : self.dimension = Int.ofNat d) (hd3 : d ≤ 3)
    (hmesh : self.solver.model self.geometry_name = some data_mesh)
    (hupd : data_mesh.nodes.length * d ≤ update.length) :
    ∃ model2, self.ApplyUpdateToData pyZero update = .ok model2 ∧
      ∃ mesh2, model2 self.geometry_name = some mesh2 ∧
        mesh2.nodes.length = data_mesh.nodes.length ∧
        ∀ (k : Nat) (n1 : NodeData α), data_mesh.nodes[k]? = some n1 →
          ∃ n2, mesh2.nodes[k]? = some n2 ∧
            ∀ i, i < d → (GetSolutionStepValue n2 self.name 0)[i]? = update[k * d + i]? := by
  have hdt : self.dimension.toNat = d := by rw [hdim]; rfl
  obtain ⟨nodes2, bufF, hsc, hlen, hprop⟩ :=
    scatterNodes_ok self.name d update pyZero hd3 data_mesh.nodes 0 (List.replicate 3 pyZero)
      (by simp) (fun j _ hj3 => by rw [List.getElem?_replicate, if_pos hj3]) (by simpa using hupd)
  refine ⟨fun g => if g = self.geometry_name then some ⟨nodes2⟩ else self.solver.model g,
    ?_, ⟨nodes2⟩, by simp, by simpa using hlen, ?_⟩
  · simp only [CouplingInterfaceData.ApplyUpdateToData, hmesh, hdt, hsc]
  · intro k n1 hk
    obtain ⟨buf, hn2, hblen, hcopy, hz⟩ := hprop k n1 hk
    refine ⟨SetSolutionStepValue n1 self.name 0 buf, hn2, ?_⟩
    intro i hi
    have hget : GetSolutionStepValue (SetSolutionStepValue n1 self.name 0 buf) self.name 0
        = buf := by
      simp [GetSolutionStepValue, SetSolutionStepValue]
    rw [hget]
    simpa using hcopy i hi

/-- Concrete coupling data with configured dimension 4 over the two-node
mesh. -/
def wData4 : CouplingInterfaceData Int :=
  ⟨velocityName, ⟨wModel⟩, Int.ofNat 4, "node_historical", interfaceName⟩

/-- Concrete update of length `2 * 4`, as claim C2 requires for dimension 4. -/
def wUpdate4 : List Int := [1, 2, 3, 4, 11, 12, 13, 14]

/-- Solution-step-0 value of the first interface node after a run of
`ApplyUpdateToData`, whatever the outcome. -/
def firstNodeValueAfter (r : PyResult (EngineModel Int)) : Option (List Int) :=
  match r with
  | .ok m | .exn m =>
    match m interfaceName with
    | some mesh =>
      match mesh.nodes with
      | node :: _ => some (GetSolutionStepValue node velocityName 0)
      | [] => none
    | none => none

/-- Counterexample to C2 as stated: with configured dimension 4 and an update
holding all `n*d = 8` entries, the call does not complete normally (the 3-slot
buffer raises IndexError) and the first node keeps its old value `[7, 8, 9]`
instead of receiving `update[0..3] = [1, 2, 3, 4]`. -/
theorem C2_counterexample :
    (wData4.ApplyUpdateToData (0 : Int) wUpdate4).isOk = false ∧
    firstNodeValueAfter (wData4.ApplyUpdateToData (0 : Int) wUpdate4) = some [7, 8, 9] := by
  exact ⟨rfl, rfl⟩

end KratosSpec

namespace KratosSpec

/-- Concrete update of length `2 * 2` for the dimension-2 configuration. -/
def wUpdate2 : List Int := [10, 20, 30, 40]

/-- Witness for the amended C2: the hypotheses hold for the concrete
dimension-2 configuration and the four-entry update, and the theorem applies
there. -/
theorem C2_witness :
    (wData.dimension = Int.ofNat 2 ∧ 2 ≤ 3 ∧
     wData.solver.model wData.geometry_name = some wMesh ∧
     wMesh.nodes.length * 2 ≤ wUpdate2.length) ∧
    (∃ model2, wData.ApplyUpdateToData (0 : Int) wUpdate2 = .ok model2 ∧
      ∃ mesh2, model2 wData.geometry_name = some mesh2 ∧
        mesh2.nodes.length = wMesh.nodes.length ∧
        ∀ (k : Nat) (n1 : NodeData Int), wMesh.nodes[k]? = some n1 →
          ∃ n2, mesh2.nodes[k]? = some n2 ∧
            ∀ i, i < 2 → (GetSolutionStepValue n2 wData.name 0)[i]? = wUpdate2[k * 2 + i]?) := by
  have h1 : wData.dimension = Int.ofNat 2 := rfl
  have h2 : (2 : Nat) ≤ 3 := by decide
  have h3 : wData.solver.model wData.geometry_name = some wMesh := rfl
  have h4 : wMesh.nodes.length * 2 ≤ wUpdate2.length := by decide
  exact ⟨⟨h1, h2, h3, h4⟩, C2_applyUpdateToData_stores wData 0 wUpdate2 2 wMesh h1 h2 h3 h4⟩

/-- C6: `ApplyUpdateToData` always hands the engine the 3-slot buffer: for a
configured dimension `d ≤ 3` every node receives a stored value of exactly 3
components whose components `d ≤ j < 3` are the Python `0`, and for `d > 3`
the inner loop of the very first node raises IndexError at the buffer bound
before any `SetSolutionStepValue` call, so every node keeps its old values. -/
theorem C6_applyUpdateToData_buffer {α : Type} (self : CouplingInterfaceData α)
    (pyZero : α) (update : List α) (d : Nat) (data_mesh : MeshPart α)
    (hdim : self.dimension = Int.ofNat d)
    (hmesh : self.solver.model self.geometry_name = some data_mesh) :
    (d ≤ 3 → data_mesh.nodes.length * d ≤ update.length →
      ∃ model2, self.ApplyUpdateToData pyZero update = .ok model2 ∧
        ∃ mesh2, model2 self.geometry_name = some mesh2 ∧
          ∀ (k : Nat) (n2 : NodeData α), mesh2.nodes[k]? = some n2 →
            (GetSolutionStepValue n2 self.name 0).length = 3 ∧
            ∀ j, d ≤ j → j < 3 → (GetSolutionStepValue n2 self.name 0)[j]? = some pyZero) ∧
    (3 < d → 0 < data_mesh.nodes.length → d ≤ update.length →
      (self.ApplyUpdateToData pyZero update).isOk = false ∧
      ∀ model2, self.ApplyUpdateToData pyZero update = .exn model2 →
        model2 self.geometry_name = some data_mesh) := by
  have hdt : self.dimension.toNat = d := by rw [hdim]; rfl
  constructor
  · intro hd3 hupd
    obtain ⟨nodes2, bufF, hsc, hlen, hprop⟩ :=
      scatterNodes_ok self.name d update pyZero hd3 data_mesh.nodes 0 (List.replicate 3 pyZero)
        (by simp) (fun j _ hj3 => by rw [List.getElem?_replicate, if_pos hj3])
        (by simpa using hupd)
    refine ⟨fun g => if g = self.geometry_name then some ⟨nodes2⟩ else self.solver.model g,
      ?_, ⟨nodes2⟩, by simp, ?_⟩
    · simp only [CouplingInterfaceData.ApplyUpdateToData, hmesh, hdt, hsc]
    · intro k n2 hk
      change nodes2[k]? = some n2 at hk
      have hk2 : k < nodes2.length := by
        by_contra hcon
        rw [List.getElem?_eq_none (by omega)] at hk
        cases hk
      have hk3 : k < data_mesh.nodes.length := by omega
      obtain ⟨n1, hk1⟩ : ∃ n1, data_mesh.nodes[k]? = some n1 := by
        rw [List.getElem?_eq_getElem hk3]
        exact ⟨_, rfl⟩
      obtain ⟨buf, hn2, hblen, hcopy, hz⟩ := hprop k n1 hk1
      have hn2eq : n2 = SetSolutionStepValue n1 self.name 0 buf := by
        rw [hk] at hn2
        exact Option.some.inj hn2
      have hget : GetSolutionStepValue n2 self.name 0 = buf := by
        rw [hn2eq]
        simp [GetSolutionStepValue, SetSolutionStepValue]
      rw [hget]
      exact ⟨hblen, hz⟩
  · intro hd3 hpos hupd
    obtain ⟨meshNodes⟩ := data_mesh
    rcases hmn : meshNodes with _ | ⟨node, rest⟩
    · subst hmn
      simp at hpos
    · subst hmn
      obtain ⟨bad, hbad⟩ :=
        copyLoop_exn_of_short update (0 * d) d 0 (List.replicate 3 pyZero)
          (by simp; omega) (by simp) (by simp; omega)
      have hscat : scatterNodes self.name d update (node :: rest) 0 (List.replicate 3 pyZero)
          = .exn (node :: rest, bad) := by
        simp only [scatterNodes, fillBuffer, hbad]
      have happly : self.ApplyUpdateToData pyZero update
          = .exn (fun g => if g = self.geometry_name
              then some ⟨node :: rest⟩ else self.solver.model g) := by
        simp only [CouplingInterfaceData.ApplyUpdateToData, hmesh, hdt, hscat]
      refine ⟨by rw [happly]; rfl, ?_⟩
      intro model2 hm2
      rw [happly] at hm2
      injection hm2 with hm2
      rw [← hm2]
      simp

end KratosSpec

namespace KratosSpec

/-- Witness for C6: both hypotheses hold for the concrete dimension-2
configuration, and the theorem applies there. -/
theorem C6_witness :
    (wData.dimension = Int.ofNat 2 ∧
     wData.solver.model wData.geometry_name = some wMesh) ∧
    ((2 ≤ 3 → wMesh.nodes.length * 2 ≤ wUpdate2.length →
      ∃ model2, wData.ApplyUpdateToData (0 : Int) wUpdate2 = .ok model2 ∧
        ∃ mesh2, model2 wData.geometry_name = some mesh2 ∧
          ∀ (k : Nat) (n2 : NodeData Int), mesh2.nodes[k]? = some n2 →
            (GetSolutionStepValue n2 wData.name 0).length = 3 ∧
            ∀ j, 2 ≤ j → j < 3 →
              (GetSolutionStepValue n2 wData.name 0)[j]? = some (0 : Int)) ∧
    (3 < 2 → 0 < wMesh.nodes.length → 2 ≤ wUpdate2.length →
      (wData.ApplyUpdateToData (0 : Int) wUpdate2).isOk = false ∧
      ∀ model2, wData.ApplyUpdateToData (0 : Int) wUpdate2 = .exn model2 →
        model2 wData.geometry_name = some wMesh)) :=
  ⟨⟨rfl, rfl⟩, C6_applyUpdateToData_buffer wData 0 wUpdate2 2 wMesh rfl rfl⟩

/-- Concrete coupling data with configured dimension 3. -/
def wData3 : CouplingInterfaceData Int :=
  ⟨velocityName, ⟨wModel⟩, Int.ofNat 3, "node_historical", interfaceName⟩

/-- C7: with configured dimension exactly 3 (and 3-component nodal values, as
a dimension-3 variable has), the round trip
`ApplyUpdateToData(GetPythonList(0))` completes and leaves the
solution-step-0 value of the configured variable unchanged on every node. -/
theorem C7_roundTrip_preserves {α : Type} (self : CouplingInterfaceData α) (pyZero : α)
    (data_mesh : MeshPart α)
    (hdim : self.dimension = Int.ofNat 3)
    (hmesh : self.solver.model self.geometry_name = some data_mesh)
    (hval : ∀ node, node ∈ data_mesh.nodes →
      (GetSolutionStepValue node self.name 0).length = 3) :
    ∃ data, self.GetPythonList pyZero 0 = some data ∧
      ∃ model2, self.ApplyUpdateToData pyZero data = .ok model2 ∧
        ∃ mesh2, model2 self.geometry_name = some mesh2 ∧
          mesh2.nodes.length = data_mesh.nodes.length ∧
          ∀ (k : Nat) (n1 : NodeData α), data_mesh.nodes[k]? = some n1 →
            ∃ n2, mesh2.nodes[k]? = some n2 ∧
              GetSolutionStepValue n2 self.name 0 = GetSolutionStepValue n1 self.name 0 := by
  have hdt : self.dimension.toNat = 3 := by rw [hdim]; rfl
  obtain ⟨data, hdata, hdlen, _, hdcopy⟩ :=
    gatherNodes_ok self.name 0 3 data_mesh.nodes 0
      (List.replicate (data_mesh.nodes.length * 3) pyZero)
      (fun node hn => le_of_eq (hval node hn).symm) (by simp)
  have hget : self.GetPythonList pyZero 0 = some data := by
    simp only [CouplingInterfaceData.GetPythonList, hmesh, hdt]
    exact hdata
  obtain ⟨nodes2, bufF, hsc, hslen, hprop⟩ :=
    scatterNodes_ok self.name 3 data pyZero (le_refl 3) data_mesh.nodes 0
      (List.replicate 3 pyZero) (by simp)
      (fun j hdj hj3 => absurd hj3 (by omega))
      (by simp [hdlen])
  refine ⟨data, hget,
    fun g => if g = self.geometry_name then some ⟨nodes2⟩ else self.solver.model g, ?_,
    ⟨nodes2⟩, by simp, by simpa using hslen, ?_⟩
  · simp only [CouplingInterfaceData.ApplyUpdateToData, hmesh, hdt, hsc]
  · intro k n1 hk
    obtain ⟨buf, hn2, hblen, hcopy, _⟩ := hprop k n1 hk
    refine ⟨SetSolutionStepValue n1 self.name 0 buf, hn2, ?_⟩
    have hgetv : GetSolutionStepValue (SetSolutionStepValue n1 self.name 0 buf) self.name 0
        = buf := by
      simp [GetSolutionStepValue, SetSolutionStepValue]
    rw [hgetv]
    have hmem : n1 ∈ data_mesh.nodes := List.getElem?_mem hk
    have hvlen : (GetSolutionStepValue n1 self.name 0).length = 3 := hval n1 hmem
    apply List.ext_getElem?
    intro j
    by_cases hj : j < 3
    · have h1 : buf[j]? = data[(0 + k) * 3 + j]? := hcopy j hj
      have h2 : data[(0 + k) * 3 + j]? = (GetSolutionStepValue n1 self.name 0)[j]? :=
        hdcopy k n1 hk j hj
      rw [h1, h2]
    · rw [List.getElem?_eq_none (by omega), List.getElem?_eq_none (by omega)]

/-- Witness for C7: the hypotheses hold for the concrete dimension-3
configuration over the two-node mesh, and the theorem applies there. -/
theorem C7_witness :
    (wData3.dimension = Int.ofNat 3 ∧
     wData3.solver.model wData3.geometry_name = some wMesh ∧
     (∀ node, node ∈ wMesh.nodes → (GetSolutionStepValue node wData3.name 0).length = 3)) ∧
    (∃ data, wData3.GetPythonList (0 : Int) 0 = some data ∧
      ∃ model2, wData3.ApplyUpdateToData (0 : Int) data = .ok model2 ∧
        ∃ mesh2, model2 wData3.geometry_name = some mesh2 ∧
          mesh2.nodes.length = wMesh.nodes.length ∧
          ∀ (k : Nat) (n1 : NodeData Int), wMesh.nodes[k]? = some n1 →
            ∃ n2, mesh2.nodes[k]? = some n2 ∧
              GetSolutionStepValue n2 wData3.name 0 = GetSolutionStepValue n1 wData3.name 0) := by
  have h3 : ∀ node, node ∈ wMesh.nodes →
      (GetSolutionStepValue node wData3.name 0).length = 3 := by
    intro node hn
    have : node = wNode1 ∨ node = wNode2 := by simpa [wMesh] using hn
    rcases this with h | h <;> subst h <;> rfl
  exact ⟨⟨rfl, rfl, h3⟩, C7_roundTrip_preserves wData3 0 wMesh rfl rfl h3⟩

end KratosSpec

namespace KratosSpec

/-- C8: the two read accessors leave the engine model untouched (their
state-threaded forms return the model unchanged together with the plain
results), and `ApplyUpdateToData` — whether it completes or raises — changes
no other model part and, on the configured geometry, changes no nodal entry
outside the pair (configured variable, solution step 0). -/
theorem C8_reads_pure_write_framed {α : Type} (self : CouplingInterfaceData α) (pyZero : α)
    (update : List α) (step : Nat) (data_mesh : MeshPart α)
    (hmesh : self.solver.model self.geometry_name = some data_mesh) :
    (self.GetPythonListThreaded pyZero step).1 = self.solver.model ∧
    (self.GetPythonListThreaded pyZero step).2 = self.GetPythonList pyZero step ∧
    (self.GetNumpyArrayThreaded pyZero step).1 = self.solver.model ∧
    (self.GetNumpyArrayThreaded pyZero step).2 = self.GetNumpyArray pyZero step ∧
    ∀ model2, (self.ApplyUpdateToData pyZero update = .ok model2 ∨
               self.ApplyUpdateToData pyZero update = .exn model2) →
      (∀ g, g ≠ self.geometry_name → model2 g = self.solver.model g) ∧
      ∃ mesh2, model2 self.geometry_name = some mesh2 ∧
        mesh2.nodes.length = data_mesh.nodes.length ∧
        ∀ (k : Nat) (n1 : NodeData α), data_mesh.nodes[k]? = some n1 →
          ∃ n2, mesh2.nodes[k]? = some n2 ∧
            ∀ (v : String) (s : Nat), ¬(v = self.name ∧ s = 0) → n2 v s = n1 v s := by
  have hthread : self.GetPythonListThreaded pyZero step
      = (self.solver.model, self.GetPythonList pyZero step) := by
    simp only [CouplingInterfaceData.GetPythonListThreaded,
      CouplingInterfaceData.GetPythonList, hmesh]
    exact gatherNodesThreaded_spec self.name step self.dimension.toNat data_mesh.nodes 0 _ _
  refine ⟨by rw [hthread], by rw [hthread], ?_, ?_, ?_⟩
  · simp only [CouplingInterfaceData.GetNumpyArrayThreaded, hthread]
  · simp only [CouplingInterfaceData.GetNumpyArrayThreaded, hthread,
      CouplingInterfaceData.GetNumpyArray]
  · intro model2 hm2
    cases hsc : scatterNodes self.name self.dimension.toNat update data_mesh.nodes 0
        (List.replicate 3 pyZero) with
    | ok p =>
      obtain ⟨nodes2, bufZ⟩ := p
      have happ : self.ApplyUpdateToData pyZero update
          = .ok (fun g => if g = self.geometry_name
              then some ⟨nodes2⟩ else self.solver.model g) := by
        simp only [CouplingInterfaceData.ApplyUpdateToData, hmesh, hsc]
      have hm : model2 = fun g => if g = self.geometry_name
          then some ⟨nodes2⟩ else self.solver.model g := by
        rcases hm2 with h | h
        · rw [happ] at h
          injection h with h
          exact h.symm
        · rw [happ] at h
          exact PyResult.noConfusion h
      obtain ⟨hslen, hshape⟩ :=
        scatterNodes_shape self.name self.dimension.toNat update data_mesh.nodes 0
          (List.replicate 3 pyZero) nodes2 bufZ (Or.inl hsc)
      subst hm
      refine ⟨fun g hg => by simp [hg], ⟨nodes2⟩, by simp, by simpa using hslen, ?_⟩
      intro k n1 hk
      obtain ⟨n2, hn2, hor⟩ := hshape k n1 hk
      refine ⟨n2, hn2, ?_⟩
      intro v s hv
      rcases hor with h | ⟨buf, h⟩
      · rw [h]
      · rw [h]
        simp only [SetSolutionStepValue, if_neg hv]
    | exn p =>
      obtain ⟨nodes2, bufZ⟩ := p
      have happ : self.ApplyUpdateToData pyZero update
          = .exn (fun g => if g = self.geometry_name
              then some ⟨nodes2⟩ else self.solver.model g) := by
        simp only [CouplingInterfaceData.ApplyUpdateToData, hmesh, hsc]
      have hm : model2 = fun g => if g = self.geometry_name
          then some ⟨nodes2⟩ else self.solver.model g := by
        rcases hm2 with h | h
        · rw [happ] at h
          exact PyResult.noConfusion h
        · rw [happ] at h
          injection h with h
          exact h.symm
      obtain ⟨hslen, hshape⟩ :=
        scatterNodes_shape self.name self.dimension.toNat update data_mesh.nodes 0
          (List.replicate 3 pyZero) nodes2 bufZ (Or.inr hsc)
      subst hm
      refine ⟨fun g hg => by simp [hg], ⟨nodes2⟩, by simp, by simpa using hslen, ?_⟩
      intro k n1 hk
      obtain ⟨n2, hn2, hor⟩ := hshape k n1 hk
      refine ⟨n2, hn2, ?_⟩
      intro v s hv
      rcases hor with h | ⟨buf, h⟩
      · rw [h]
      · rw [h]
        simp only [SetSolutionStepValue, if_neg hv]

/-- Witness for C8: the mesh hypothesis holds for the concrete dimension-2
configuration, and the theorem applies there. -/
theorem C8_witness :
    wData.solver.model wData.geometry_name = some wMesh ∧
    ((wData.GetPythonListThreaded (0 : Int) 0).1 = wData.solver.model ∧
     (wData.GetPythonListThreaded (0 : Int) 0).2 = wData.GetPythonList (0 : Int) 0 ∧
     (wData.GetNumpyArrayThreaded (0 : Int) 0).1 = wData.solver.model ∧
     (wData.GetNumpyArrayThreaded (0 : Int) 0).2 = wData.GetNumpyArray (0 : Int) 0 ∧
     ∀ model2, (wData.ApplyUpdateToData (0 : Int) wUpdate2 = .ok model2 ∨
                wData.ApplyUpdateToData (0 : Int) wUpdate2 = .exn model2) →
       (∀ g, g ≠ wData.geometry_name → model2 g = wData.solver.model g) ∧
       ∃ mesh2, model2 wData.geometry_name = some mesh2 ∧
         mesh2.nodes.length = wMesh.nodes.length ∧
         ∀ (k : Nat) (n1 : NodeData Int), wMesh.nodes[k]? = some n1 →
           ∃ n2, mesh2.nodes[k]? = some n2 ∧
             ∀ (v : String) (s : Nat), ¬(v = wData.name ∧ s = 0) → n2 v s = n1 v s) :=
  ⟨rfl, C8_reads_pure_write_framed wData 0 wUpdate2 0 wMesh rfl⟩

end KratosSpec

namespace KratosSpec

/-! Embedding of
applications/SwimmingDEMApplication/python_scripts/fluid_fraction_test_analysis.py.
Parameters objects are represented by their JSON text; the engine parses the
text opaquely, so textual identity is object identity here. -/

/-- Observable effect of `FluidFractionTestAnalysis.__init__(self, model,
iteration, varying_parameters = Parameters("{}"))`: which constructor argument
reaches which consumer.  `projector_iteration` is the argument handed to
`hdf5_script.ErrorProjectionPostProcessTool(iteration)`, `base_parameters` the
argument handed to `SwimmingDEMAnalysis.__init__(model, varying_parameters)`,
and `project_parameters` the attribute assigned by
`self.project_parameters = varying_parameters`. -/
structure FluidFractionTestAnalysisState where
  projector_iteration : String
  base_parameters : String
  project_parameters : String
deriving DecidableEq

/-- Constructor body of `FluidFractionTestAnalysis`. -/
def FluidFractionTestAnalysis.init (iteration : String) (varying_parameters : String) :
    FluidFractionTestAnalysisState :=
  ⟨iteration, varying_parameters, varying_parameters⟩

/-- Default of the `varying_parameters` keyword argument:
`Parameters("\x7b\x7d")`, the empty JSON object. -/
def emptyParameters : String := "\x7b\x7d"

/-- The `__main__` block of fluid_fraction_test_analysis.py: the file
ProjectParameters.json is parsed into `parameters` and the analysis is built
by `FluidFractionTestAnalysis(model, parameters)` — two positional arguments,
so `parameters` binds to `iteration` and `varying_parameters` keeps its
default. -/
def fluidFractionMain (projectParametersJson : String) : FluidFractionTestAnalysisState :=
  FluidFractionTestAnalysis.init projectParametersJson emptyParameters

/-- Concrete non-trivial ProjectParameters.json content. -/
def sampleProjectParameters : String := "\x7b \"fluid_domain_volume\": 1.0 \x7d"

/-- C3 fails on the code: running the module as `__main__` leaves the analysis
with the default empty `project_parameters`, while the JSON text parsed from
ProjectParameters.json ends up as the `iteration` argument of the HDF5
post-processing tool. -/
theorem C3_main_misbinds_parameters :
    (fluidFractionMain sampleProjectParameters).project_parameters = emptyParameters ∧
    (fluidFractionMain sampleProjectParameters).project_parameters ≠ sampleProjectParameters ∧
    (fluidFractionMain sampleProjectParameters).projector_iteration = sampleProjectParameters := by
  refine ⟨rfl, ?_, rfl⟩
  decide

end KratosSpec

namespace KratosSpec

/-! Embedding of applications/MappingApplication/tests/SmallTestsMPI.py -/

/-- Failure raised by the engine bindings, e.g. the KratosMultiphysics.mpi
module failing to import or `mpi.size` being unavailable. -/
inductive EngineError where
  | mpiUnavailable
  | other (msg : String)
deriving DecidableEq

/-- Module-level guard of lines 6-9, `try: from KratosMultiphysics.mpi
(star-import)` with a bare `except: pass`; the argument is the outcome of
that engine-module load. -/
def importMpiGuard (importResult : Except EngineError Unit) : Except EngineError Unit :=
  match importResult with
  | .ok u => .ok u
  | .error _ => .ok ()

/-- Processor-count probe of `NearestNeighborMapperTestFactory.setUp`, lines
34-37: `try: self.num_processors = mpi.size` with a bare
`except: self.num_processors = 1`.  The argument is the outcome of evaluating
`mpi.size` through the engine. -/
def setUpNumProcessors (mpiSize : Except EngineError Nat) : Except EngineError Nat :=
  match mpiSize with
  | .ok s => .ok s
  | .error _ => .ok 1

/-- Exception-handling construct found in a script of this repository. -/
structure ExceptionHandler where
  script : String
  construct : String
deriving DecidableEq

/-- Script that holds every exception handler of the repository. -/
def mappingTestsScript : String := "applications/MappingApplication/tests/SmallTestsMPI.py"

/-- Every `try`/`except` statement occurring in the seven scripts of the
repository; the remaining six scripts contain none. -/
def repositoryExceptionHandlers : List ExceptionHandler :=
  [⟨mappingTestsScript, "bare except around from KratosMultiphysics.mpi import, lines 6-9"⟩,
   ⟨mappingTestsScript, "bare except around self.num_processors = mpi.size, lines 34-37"⟩]

/-- Counterexample to C4 as stated: when reading `mpi.size` raises an engine
error, `setUp` does not let it propagate — the bare `except` swallows it and
substitutes the value 1. -/
theorem C4_counterexample :
    setUpNumProcessors (Except.error EngineError.mpiUnavailable) = Except.ok 1 ∧
    setUpNumProcessors (Except.error EngineError.mpiUnavailable)
      ≠ Except.error EngineError.mpiUnavailable := by
  refine ⟨rfl, ?_⟩
  intro h
  exact Except.noConfusion h

/-- C4 (amended): engine failures pass through unmodified except in
SmallTestsMPI.py, whose two bare `try`/`except` blocks — the mpi import guard
and the `mpi.size` probe of `setUp` — suppress the failure and fall back to
serial behavior; no other script of the repository contains an exception
handler. -/
theorem C4_amended_handlers_localized :
    (∀ e, setUpNumProcessors (Except.error e) = Except.ok 1) ∧
    (∀ s, setUpNumProcessors (Except.ok s) = Except.ok s) ∧
    (∀ e, importMpiGuard (Except.error e) = Except.ok ()) ∧
    (∀ u, importMpiGuard (Except.ok u) = Except.ok u) ∧
    repositoryExceptionHandlers.all (fun h => h.script == mappingTestsScript) = true :=
  ⟨fun _ => rfl, fun _ => rfl, fun _ => rfl, fun _ => rfl, by decide⟩

/-- Calls that `test_execution` can issue on the constructed test object; the
rational argument is the tolerance literal passed at the call site. -/
inductive MapperCall where
  | TestMapConstantScalarValues (tol : Rat)
  | TestInverseMapConstantScalarValues (tol : Rat)
  | TestMapConstantVectorValues (tol : Rat)
  | TestInverseMapConstantVectorValues (tol : Rat)
  | TestMapNonConstantScalarValues (tol : Rat)
  | TestInverseMapNonConstantScalarValues (tol : Rat)
deriving DecidableEq

/-- Test object constructed by `setUp`: the serial
`KratosExecuteNearestNeighborMapperTest` or the parallel
`KratosExecuteNearestNeighborMapperTestMPI`. -/
inductive MapperTestObject where
  | serialMapperTest
  | mpiMapperTest
deriving DecidableEq

/-- Dispatch of `setUp` on the processor count, lines 42-46. -/
def NearestNeighborMapperTestFactory.setUpObject (num_processors : Nat) : MapperTestObject :=
  if num_processors = 1 then .serialMapperTest else .mpiMapperTest

/-- Call sequence of `serialTests`, lines 70-78. -/
def serialTests : List MapperCall :=
  [.TestMapConstantScalarValues 1, .TestInverseMapConstantScalarValues 2,
   .TestMapConstantVectorValues 3, .TestInverseMapConstantVectorValues 4,
   .TestMapNonConstantScalarValues 5, .TestInverseMapNonConstantScalarValues 6]

/-- Call sequence of `parallelTests`, lines 80-87: only constant fields, so
independent of the processor count. -/
def parallelTests : List MapperCall :=
  [.TestMapConstantScalarValues 1, .TestInverseMapConstantScalarValues 2,
   .TestMapConstantVectorValues 3, .TestInverseMapConstantVectorValues 4]

/-- Processor counts for which the non-constant forward mapping test runs,
line 58. -/
def list_processors_TestMapNonConstantScalarValues : List Nat := [2, 4, 8]

/-- Processor counts for which the non-constant inverse mapping test runs,
line 62. -/
def list_processors_TestInverseMapNonConstantScalarValues : List Nat := [3, 5, 9]

/-- Call sequence issued by `test_execution`, lines 48-64. -/
def NearestNeighborMapperTestFactory.test_execution (num_processors : Nat) : List MapperCall :=
  if num_processors = 1 then serialTests
  else
    parallelTests
      ++ (if num_processors ∈ list_processors_TestMapNonConstantScalarValues then
            [.TestMapNonConstantScalarValues 5] else [])
      ++ (if num_processors ∈ list_processors_TestInverseMapNonConstantScalarValues then
            [.TestInverseMapNonConstantScalarValues 6] else [])

/-- C5: with one processor `setUp` builds the serial test and `test_execution`
runs exactly the six serial tests; with more than one processor `setUp` builds
the MPI test and `test_execution` runs the four constant-field tests always,
`TestMapNonConstantScalarValues(5.0)` exactly for counts 2, 4, 8, and
`TestInverseMapNonConstantScalarValues(6.0)` exactly for counts 3, 5, 9. -/
theorem C5_mapper_test_dispatch (n : Nat) :
    (n = 1 → NearestNeighborMapperTestFactory.setUpObject n = .serialMapperTest ∧
      NearestNeighborMapperTestFactory.test_execution n = serialTests) ∧
    (1 < n → NearestNeighborMapperTestFactory.setUpObject n = .mpiMapperTest ∧
      parallelTests ⊆ NearestNeighborMapperTestFactory.test_execution n ∧
      (MapperCall.TestMapNonConstantScalarValues 5
          ∈ NearestNeighborMapperTestFactory.test_execution n ↔
        n ∈ list_processors_TestMapNonConstantScalarValues) ∧
      (MapperCall.TestInverseMapNonConstantScalarValues 6
          ∈ NearestNeighborMapperTestFactory.test_execution n ↔
        n ∈ list_processors_TestInverseMapNonConstantScalarValues)) := by
  constructor
  · intro h1
    subst h1
    exact ⟨rfl, rfl⟩
  · intro hn
    have hne : ¬ n = 1 := by omega
    refine ⟨by simp [NearestNeighborMapperTestFactory.setUpObject, hne], ?_, ?_, ?_⟩
    · intro c hc
      simp only [NearestNeighborMapperTestFactory.test_execution, if_neg hne]
      simp [hc]
    · simp only [NearestNeighborMapperTestFactory.test_execution, if_neg hne]
      by_cases hm : n ∈ list_processors_TestMapNonConstantScalarValues
      · simp [hm, parallelTests]
      · simp only [if_neg hm]
        by_cases hm2 : n ∈ list_processors_TestInverseMapNonConstantScalarValues
        · simp [hm, hm2, parallelTests]
        · simp [hm, hm2, parallelTests]
    · simp only [NearestNeighborMapperTestFactory.test_execution, if_neg hne]
      by_cases hm2 : n ∈ list_processors_TestInverseMapNonConstantScalarValues
      · simp [hm2, parallelTests]
      · simp only [if_neg hm2]
        by_cases hm : n ∈ list_processors_TestMapNonConstantScalarValues
        · simp [hm, hm2, parallelTests]
        · simp [hm, hm2, parallelTests]

/-- Witness for C5: the theorem applied at a serial run (1 processor) and at
a 4-processor run, discharging both guards. -/
theorem C5_witness :
    ((1 : Nat) = 1 ∧ NearestNeighborMapperTestFactory.setUpObject 1 = .serialMapperTest ∧
      NearestNeighborMapperTestFactory.test_execution 1 = serialTests) ∧
    (1 < 4 ∧ NearestNeighborMapperTestFactory.setUpObject 4 = .mpiMapperTest ∧
      parallelTests ⊆ NearestNeighborMapperTestFactory.test_execution 4 ∧
      (MapperCall.TestMapNonConstantScalarValues 5
          ∈ NearestNeighborMapperTestFactory.test_execution 4 ↔
        4 ∈ list_processors_TestMapNonConstantScalarValues) ∧
      (MapperCall.TestInverseMapNonConstantScalarValues 6
          ∈ NearestNeighborMapperTestFactory.test_execution 4 ↔
        4 ∈ list_processors_TestInverseMapNonConstantScalarValues)) :=
  ⟨⟨rfl, (C5_mapper_test_dispatch 1).1 rfl⟩,
   ⟨by decide, (C5_mapper_test_dispatch 4).2 (by decide)⟩⟩

end KratosSpec

namespace KratosSpec

/-- Process-level state the test scripts touch: the current working
directory. -/
structure ProcState where
  cwd : String
deriving DecidableEq

/-- State of a `controlledExecutionScope` object after `__init__(self, scope)`
(lines 19-22): `currentPath` records `os.getcwd()` at construction and `scope`
the target directory. -/
structure controlledExecutionScope where
  currentPath : String
  scope : String
deriving DecidableEq

/-- `controlledExecutionScope.__init__`: records the working directory of the
construction moment. -/
def controlledExecutionScope.init (s : ProcState) (scope : String) :
    controlledExecutionScope :=
  ⟨s.cwd, scope⟩

/-- `controlledExecutionScope.__enter__` (lines 24-25): `os.chdir(self.scope)`. -/
def controlledExecutionScope.enter (c : controlledExecutionScope) (_s : ProcState) :
    ProcState :=
  ⟨c.scope⟩

/-- `controlledExecutionScope.__exit__` (lines 27-28): `os.chdir(self.currentPath)`,
run on normal and on exceptional exit alike; returning None it never
suppresses the exception. -/
def controlledExecutionScope.exit (c : controlledExecutionScope) (_s : ProcState) :
    ProcState :=
  ⟨c.currentPath⟩

/-- Python `with controlledExecutionScope(scope): body` as used at lines 40
and 50: the object is constructed in the `with` head, `__enter__` runs, the
body transforms the state and either returns a value or raises, and
`__exit__` runs in both cases before the result or exception leaves the
statement. -/
def withControlledExecutionScope {ε ρ : Type} (scope : String)
    (body : ProcState → ProcState × Except ε ρ) (s0 : ProcState) :
    ProcState × Except ε ρ :=
  let c := controlledExecutionScope.init s0 scope
  let s1 := controlledExecutionScope.enter c s0
  let r := body s1
  let s2 := controlledExecutionScope.exit c r.1
  (s2, r.2)

/-- C10: around any body — normally returning or raising, and whatever
directory changes it performs — the `with controlledExecutionScope(scope)`
statement restores the working directory recorded when the object was
constructed, and passes the body's outcome through unchanged. -/
theorem C10_controlledExecutionScope_restores_cwd {ε ρ : Type} (scope : String)
    (body : ProcState → ProcState × Except ε ρ) (s0 : ProcState) :
    (withControlledExecutionScope scope body s0).1.cwd = s0.cwd ∧
    (withControlledExecutionScope scope body s0).2
      = (body (controlledExecutionScope.enter
          (controlledExecutionScope.init s0 scope) s0)).2 :=
  ⟨rfl, rfl⟩

/-! Embedding of
applications/FemToDemApplication/tests/main_fsi_aitken_for_testing.py -/

/-- ASCII fragment of Python's lexical rule for identifiers: the first
character must be a letter or an underscore. -/
def isPythonIdentStart (c : Char) : Bool := c.isAlpha || c == '_'

/-- Remaining identifier characters: letters, digits or underscores. -/
def isPythonIdentChar (c : Char) : Bool := c.isAlphanum || c == '_'

/-- Python identifier test: `def NAME(...):` is a SyntaxError whenever `NAME`
fails this check, and the containing module can be neither imported nor run. -/
def isPythonIdentifier (s : String) : Bool :=
  match s.data with
  | [] => false
  | c :: rest => isPythonIdentStart c && rest.all isPythonIdentChar

/-- Method name introduced at line 61 of main_fsi_aitken_for_testing.py,
`def 2d_fsi(self):`, inside class TestAnalytics. -/
def testAnalytics2dFsiMethodName : String := "2d_fsi"

/-- C9 fails on the code: the name of the test-case method of `TestAnalytics`
starts with a digit, so the `def` statement is a SyntaxError and the module
cannot be imported or executed as a unittest program at all. -/
theorem C9_testAnalytics_method_not_an_identifier :
    isPythonIdentifier testAnalytics2dFsiMethodName = false := by
  decide

end KratosSpec
